import Mathlib

/-!
Shallow embedding of the redux-saga-service-wrapper repository.

The repository has two implementations of the wrapper:
* the current one (file with `callServiceWithConfig` and the options-object
  signature), embedded in the `Wrapper` namespace below;
* the legacy one in `src/index.ts`, embedded in the `Legacy` namespace.

JavaScript values that flow through `callServiceWithConfig` are modelled by
`JValue`; JS objects are association lists whose lookup takes the first
matching key (JS objects have unique keys, so first match agrees with JS).
The saga itself is a generator driven by the redux-saga host.  One complete
run of the generator is modelled as a function of the host-supplied outcome
of the single `yield call(...)` suspension point (`CallOutcome`): the promise
resolved, the promise rejected with some error value, or the host cancelled
the task while it was suspended.  The run produces the ordered trace of
observable events (the service call, console logs, error-handler invocations,
the `source.cancel` signal, and the terminal outcome) together with the
terminal outcome itself.
-/

set_option autoImplicit false

namespace Wrapper

/-- Model of the JavaScript values handled by `callServiceWithConfig`:
`null`/`undefined`, strings, numbers, the axios cancel token, and plain
objects (association lists of fields). -/
inductive JValue where
  | null
  | str (s : String)
  | num (n : Int)
  | token
  | obj (fields : List (String × JValue))


/-- Key membership in a JS object: `k in o`. -/
def hasKey (fields : List (String × JValue)) (k : String) : Bool :=
  fields.any (fun kv => kv.1 == k)

/-- Property lookup `o[k]` on a JS object, `none` when the key is absent.
JS objects have unique keys, so the first match is the value. -/
def getField (fields : List (String × JValue)) (k : String) : Option JValue :=
  (fields.find? (fun kv => kv.1 == k)).map Prod.snd

/-- The duck-typing test from `callServiceWithConfig`:
`lastArg && typeof lastArg === 'object' && ('url' in lastArg || 'method' in
lastArg || 'data' in lastArg || 'params' in lastArg)`.  `null` is falsy and
strings/numbers are not objects, so only `obj` values can pass; the cancel
token object has none of the four keys. -/
def isAxiosConfigShaped : JValue → Bool
  | JValue.obj fields =>
      hasKey fields "url" || hasKey fields "method" ||
        hasKey fields "data" || hasKey fields "params"
  | _ => false

/-- Object spread `{ ...a, ...b }`: fields of `b` overwrite fields of `a`
with the same key.  Modelled so that `getField` (first-match lookup) agrees
with JS property lookup on the spread result. -/
def mergeObj (a b : List (String × JValue)) : List (String × JValue) :=
  a.filter (fun kv => !(hasKey b kv.1)) ++ b

/-- Embedding of the helper `callServiceWithConfig(fn, axiosConfig, ...args)`:
it returns the argument list that `fn` is applied to.  If the last argument
is an axios-config-shaped object it is replaced by `{ ...lastArg,
...axiosConfig }` (`args.slice(0, -1)` plus the merged object); otherwise
`axiosConfig` is appended as a new last argument.  An empty `args` list has
`args[args.length - 1] === undefined`, which fails the duck test. -/
def callServiceWithConfig (axiosConfig : List (String × JValue))
    (args : List JValue) : List JValue :=
  match args.getLast? with
  | some (JValue.obj fields) =>
      if isAxiosConfigShaped (JValue.obj fields) then
        args.dropLast ++ [JValue.obj (mergeObj fields axiosConfig)]
      else
        args ++ [JValue.obj axiosConfig]
  | _ => args ++ [JValue.obj axiosConfig]

/-- `ServiceWrapperSagaOptions`: `handleError?: Map<number, () => void>` and
`timeout?: number`.  The handlers are zero-argument side-effecting callbacks
keyed by status code; since keys are unique, a map is represented by its list
of keys and an invocation is recorded by the key of the handler invoked. -/
structure ServiceWrapperSagaOptions where
  handleError : Option (List Int)
  timeout : Option Int


/-- The destructuring `const { handleError, timeout = 30000 } = options`. -/
def resolveTimeout (options : ServiceWrapperSagaOptions) : Int :=
  options.timeout.getD 30000

/-- The object `{ cancelToken: source.token, timeout }` built in the try
block. -/
def axiosConfigFields (options : ServiceWrapperSagaOptions) :
    List (String × JValue) :=
  [("cancelToken", JValue.token), ("timeout", JValue.num (resolveTimeout options))]

/-- `ServiceResponse` / `AxiosResponse`: the fields the wrapper reads. -/
structure ServiceResponse (R : Type) where
  data : R
  status : Int
  statusText : String


/-- The shape of a rejection value as observed by the catch block:
`axios.isCancel(error)`, `error.isAxiosError === true`, the optional
`error.response`, truthiness of `error.request`, and `error.message`
(`none` models `undefined`). -/
structure ServiceError (R : Type) where
  isCancel : Bool
  isAxiosError : Bool
  response : Option (ServiceResponse R)
  request : Bool
  message : Option String


/-- JS `error.message || 'Unknown error'` (both `undefined` and the empty
string are falsy). -/
def jsOrUnknown (m : Option String) : String :=
  match m with
  | some s => if s = "" then "Unknown error" else s
  | none => "Unknown error"

/-- One `console.error` call in the catch block, tagged by the branch that
produced it and carrying exactly the data that branch logs. -/
inductive ErrLog (R : Type) where
  | serverError (status : Int) (statusText : String) (body : R)
  | networkError (message : Option String)
  | setupError (message : String)
  | unknownError (e : ServiceError R)


/-- Terminal outcome of one run of the generator: a normal `return`
(`some response` on success, `none` for the `return undefined` of the
axios-cancel branch), a `throw error`, or termination by host cancellation
(the caller receives no value). -/
inductive SagaResult (R : Type) where
  | returned (v : Option (ServiceResponse R))
  | threw (e : ServiceError R)
  | hostCancelled


/-- Observable events of one run, in order. -/
inductive Event (R : Type) where
  | callService (args : List JValue)
  | logInfo (msg : String)
  | logErr (entry : ErrLog R)
  | invokeHandler (status : Int)
  | cancelSignal (reason : String)
  | terminal (r : SagaResult R)


/-- The host-determined outcome of the single `yield call(...)` suspension:
the promise resolved, it rejected, or the host cancelled the task while it
was suspended there. -/
inductive CallOutcome (R : Type) where
  | resolve (resp : ServiceResponse R)
  | reject (e : ServiceError R)
  | hostCancel


/-- The catch block: events it emits and the result it produces.
`axios.isCancel` short-circuits to `return undefined`; otherwise the error is
classified, logged, the matching status-code handler (if any) is invoked, and
the original error is re-thrown. -/
def catchClause {R : Type} (handleError : Option (List Int))
    (e : ServiceError R) : List (Event R) × SagaResult R :=
  if e.isCancel then
    ([Event.logInfo "Request was cancelled"], SagaResult.returned none)
  else
    (if e.isAxiosError then
        match e.response with
        | some r =>
            Event.logErr (ErrLog.serverError r.status r.statusText r.data) ::
              (match handleError with
               | some keys =>
                   if keys.contains r.status then [Event.invokeHandler r.status]
                   else []
               | none => [])
        | none =>
            if e.request then [Event.logErr (ErrLog.networkError e.message)]
            else [Event.logErr (ErrLog.setupError (jsOrUnknown e.message))]
      else
        [Event.logErr (ErrLog.unknownError e)],
     SagaResult.threw e)

/-- The finally block: when `yield cancelled()` reports host cancellation it
calls `source.cancel('Operation cancelled by user')` and logs; otherwise it
does nothing. -/
def finallyEvents {R : Type} (wasCancelled : Bool) : List (Event R) :=
  if wasCancelled then
    [Event.cancelSignal "Operation cancelled by user",
     Event.logInfo "Service call cancelled"]
  else []

/-- One complete run of `serviceWrapperSaga(fn, options, ...args)` under a
given host outcome for the `yield call` suspension: the ordered event trace
(ending in the terminal outcome) and the terminal outcome.  `yield
cancelled()` is true exactly on the host-cancellation path, and generator
semantics run the finally block before control leaves the generator on every
path. -/
def serviceWrapperSaga {R : Type} (options : ServiceWrapperSagaOptions)
    (args : List JValue) (outcome : CallOutcome R) :
    List (Event R) × SagaResult R :=
  let augmented := callServiceWithConfig (axiosConfigFields options) args
  match outcome with
  | CallOutcome.resolve resp =>
      (Event.callService augmented ::
        (finallyEvents false ++
          [Event.terminal (SagaResult.returned (some resp))]),
       SagaResult.returned (some resp))
  | CallOutcome.reject e =>
      (Event.callService augmented ::
        ((catchClause options.handleError e).1 ++ finallyEvents false ++
          [Event.terminal (catchClause options.handleError e).2]),
       (catchClause options.handleError e).2)
  | CallOutcome.hostCancel =>
      (Event.callService augmented ::
        (finallyEvents true ++ [Event.terminal SagaResult.hostCancelled]),
       SagaResult.hostCancelled)

/-- Number of `source.cancel` invocations recorded in a trace. -/
def countCancelSignals {R : Type} (tr : List (Event R)) : Nat :=
  tr.countP (fun ev =>
    match ev with
    | Event.cancelSignal _ => true
    | _ => false)

/-- Number of invocations of the handler keyed by status `s` in a trace. -/
def handlerCount {R : Type} (tr : List (Event R)) (s : Int) : Nat :=
  tr.countP (fun ev =>
    match ev with
    | Event.invokeHandler t => t == s
    | _ => false)

/-- Whether any error handler was invoked in a trace. -/
def invokedAnyHandler {R : Type} (tr : List (Event R)) : Bool :=
  tr.any (fun ev =>
    match ev with
    | Event.invokeHandler _ => true
    | _ => false)

/-- The `console.error` entries of a trace, in order. -/
def errLogsOf {R : Type} (tr : List (Event R)) : List (ErrLog R) :=
  tr.filterMap (fun ev =>
    match ev with
    | Event.logErr entry => some entry
    | _ => none)

/-- The catch-block condition for the server-error branch:
`isAxiosError && error.response` is present. -/
def isServerShape {R : Type} (e : ServiceError R) : Bool :=
  e.isAxiosError && e.response.isSome

/-- The catch-block condition for the network-error branch:
`isAxiosError`, no `response`, truthy `request`. -/
def isNetworkShape {R : Type} (e : ServiceError R) : Bool :=
  e.isAxiosError && e.response.isNone && e.request

/-- The catch-block condition for the setup-error branch:
`isAxiosError`, no `response`, falsy `request`. -/
def isSetupShape {R : Type} (e : ServiceError R) : Bool :=
  e.isAxiosError && e.response.isNone && !e.request

/-- The catch-block fall-through: not recognized as an axios error. -/
def isUnknownShape {R : Type} (e : ServiceError R) : Bool :=
  !e.isAxiosError

/-! Heap-level model of `callServiceWithConfig`, used to state that the
helper never mutates caller-owned objects or arrays.  JS objects and arrays
live in an explicit heap of cells addressed by `Nat`; a `HVal` is either a
primitive or a reference into the heap.  The spread expressions
`{ ...lastArg, ...axiosConfig }` and `[...args, axiosConfig]` allocate fresh
cells; mutation of an existing cell would show up as a changed cell. -/

/-- A JS value at the heap level: a primitive or a reference to a cell. -/
inductive HVal where
  | prim (s : String)
  | ref (a : Nat)

/-- A heap cell: an object (field list) or an array (element list). -/
inductive HCell where
  | obj (fields : List (String × HVal))
  | arr (elems : List HVal)

/-- Read the cell at address `a` (a dangling address reads as an empty
object; the embedded code never dereferences a dangling address). -/
def heapGet (h : List HCell) (a : Nat) : HCell :=
  h.getD a (HCell.obj [])

/-- Key membership at the heap level. -/
def hasKeyH (fields : List (String × HVal)) (k : String) : Bool :=
  fields.any (fun kv => kv.1 == k)

/-- The duck-typing test at the heap level: only object cells can carry the
recognized keys (arrays have no such keys). -/
def isAxiosConfigShapedH (c : HCell) : Bool :=
  match c with
  | HCell.obj fields =>
      hasKeyH fields "url" || hasKeyH fields "method" ||
        hasKeyH fields "data" || hasKeyH fields "params"
  | HCell.arr _ => false

/-- Spread `{ ...a, ...b }` at the heap level. -/
def mergeObjH (a b : List (String × HVal)) : List (String × HVal) :=
  a.filter (fun kv => !(hasKeyH b kv.1)) ++ b

/-- Fields of an object cell. -/
def objFieldsH (c : HCell) : List (String × HVal) :=
  match c with
  | HCell.obj fields => fields
  | HCell.arr _ => []

/-- Heap-level `callServiceWithConfig`: `cfgRef` is the reference to the
`axiosConfig` object and `args` the elements of the (fresh) rest-parameter
array.  In the merge branch `{ ...lastArg, ...axiosConfig }` allocates one
fresh object cell at the end of the heap and the new argument list ends with
a reference to it; in the append branch the very same `axiosConfig`
reference is appended.  In both branches `[...]` builds a fresh argument
list; no existing cell is written. -/
def callServiceWithConfigHeap (h : List HCell) (cfgRef : Nat)
    (args : List HVal) : List HCell × List HVal :=
  match args.getLast? with
  | some (HVal.ref a) =>
      if isAxiosConfigShapedH (heapGet h a) then
        (h ++ [HCell.obj (mergeObjH (objFieldsH (heapGet h a))
            (objFieldsH (heapGet h cfgRef)))],
         args.dropLast ++ [HVal.ref h.length])
      else
        (h, args ++ [HVal.ref cfgRef])
  | _ => (h, args ++ [HVal.ref cfgRef])

end Wrapper

namespace Legacy

/-- The rejection value as observed by the legacy catch block in
`src/index.ts`: only `e.response` is consulted. -/
structure LegacyError (R : Type) where
  response : Option (Wrapper.ServiceResponse R)

/-- Observable events of the legacy catch block. -/
inductive LegacyEvent (R : Type) where
  | consoleError (response : Option (Wrapper.ServiceResponse R))
  | invokeHandler (status : Int)

/-- Result of running the legacy catch block: it either completes (the error
is swallowed; the generator returns `undefined`), or the block itself throws
a `TypeError` while reading `response.status` on an `undefined` response. -/
inductive LegacyCatchResult (R : Type) where
  | completed (events : List (LegacyEvent R))
  | typeError (events : List (LegacyEvent R))

/-- Whether the legacy catch block itself threw a `TypeError`. -/
def LegacyCatchResult.isTypeError {R : Type} : LegacyCatchResult R → Bool
  | LegacyCatchResult.completed _ => false
  | LegacyCatchResult.typeError _ => true

/-- Embedding of the legacy catch block:
`const { response } = e; console.error(response, ...);`
`handleError?.get(response.status)?.()`.
`console.error` accepts `undefined`.  The optional chain evaluates
`handleError` first: when it is `undefined` the whole chain short-circuits
and `response.status` is never evaluated; only when a map is supplied is
`response.status` read, which throws a `TypeError` if `response` is
`undefined`. -/
def legacyCatch {R : Type} (handleError : Option (List Int))
    (e : LegacyError R) : LegacyCatchResult R :=
  let logged : List (LegacyEvent R) := [LegacyEvent.consoleError e.response]
  match handleError with
  | none => LegacyCatchResult.completed logged
  | some keys =>
      match e.response with
      | none => LegacyCatchResult.typeError logged
      | some r =>
          LegacyCatchResult.completed
            (logged ++
              (if keys.contains r.status then [LegacyEvent.invokeHandler r.status]
               else []))

end Legacy

namespace Wrapper

/-! Helper lemmas about object lookup and spread merging. -/

lemma getField_append (l₁ l₂ : List (String × JValue)) (k : String) :
    getField (l₁ ++ l₂) k = (getField l₁ k).or (getField l₂ k) := by
  unfold getField
  rw [List.find?_append]
  cases l₁.find? (fun kv => kv.1 == k) <;> simp

lemma hasKey_eq_isSome (l : List (String × JValue)) (k : String) :
    hasKey l k = (getField l k).isSome := by
  unfold hasKey getField
  induction l with
  | nil => rfl
  | cons x xs ih =>
      by_cases hx : x.1 == k
      · simp [List.find?_cons, hx]
      · simp only [List.any_cons, List.find?_cons, hx, Bool.false_or, cond_false]
        exact ih

lemma getField_filter_of_hasKey (a b : List (String × JValue)) (k : String)
    (h : hasKey b k = true) :
    getField (a.filter (fun kv => !(hasKey b kv.1))) k = none := by
  unfold getField
  have hfn : (a.filter (fun kv => !(hasKey b kv.1))).find? (fun kv => kv.1 == k)
      = none := by
    rw [List.find?_eq_none]
    intro x hx hpk
    have hxk : x.1 = k := by simpa using hpk
    have hq := (List.mem_filter.mp hx).2
    rw [hxk, h] at hq
    simp at hq
  rw [hfn]
  rfl

lemma getField_filter_of_not_hasKey (a b : List (String × JValue)) (k : String)
    (h : hasKey b k = false) :
    getField (a.filter (fun kv => !(hasKey b kv.1))) k = getField a k := by
  unfold getField
  induction a with
  | nil => rfl
  | cons x xs ih =>
      by_cases hx : x.1 == k
      · have hxk : x.1 = k := by simpa using hx
        have hbx : hasKey b x.1 = false := by rw [hxk]; exact h
        simp [List.filter_cons, hbx, List.find?_cons, hx]
      · by_cases hbx : hasKey b x.1
        · simpa [List.filter_cons, hbx, List.find?_cons, hx] using ih
        · simpa [List.filter_cons, hbx, List.find?_cons, hx] using ih

lemma getField_mergeObj (a b : List (String × JValue)) (k : String) :
    getField (mergeObj a b) k = (getField b k).or (getField a k) := by
  unfold mergeObj
  rw [getField_append]
  cases hb : hasKey b k
  · have hbn : getField b k = none := by
      have hs := hasKey_eq_isSome b k
      rw [hb] at hs
      exact Option.not_isSome_iff_eq_none.mp (by rw [← hs]; simp)
    rw [getField_filter_of_not_hasKey a b k hb, hbn]
    cases getField a k <;> simp
  · have hbs : (getField b k).isSome := by rw [← hasKey_eq_isSome, hb]
    rw [getField_filter_of_hasKey a b k hb]
    obtain ⟨v, hv⟩ := Option.isSome_iff_exists.mp hbs
    rw [hv]
    simp

/-- The augmented argument list always ends in a configuration object whose
fields agree with the injected `axiosConfig` on every key the injected
config defines (the injected fields win in the spread). -/
lemma augmented_getLast (cfg : List (String × JValue)) (args : List JValue) :
    ∃ fields, (callServiceWithConfig cfg args).getLast? = some (JValue.obj fields)
      ∧ ∀ k, (getField cfg k).isSome → getField fields k = getField cfg k := by
  unfold callServiceWithConfig
  cases hl : args.getLast? with
  | none =>
      exact ⟨cfg, by rw [List.getLast?_concat], fun k _ => rfl⟩
  | some v =>
      cases v with
      | obj fields =>
          by_cases hs : isAxiosConfigShaped (JValue.obj fields)
          · refine ⟨mergeObj fields cfg, ?_, ?_⟩
            · simp only [hs, if_true]
              rw [List.getLast?_concat]
            · intro k hk
              rw [getField_mergeObj]
              obtain ⟨v, hv⟩ := Option.isSome_iff_exists.mp hk
              rw [hv]
              simp
          · refine ⟨cfg, ?_, fun k _ => rfl⟩
            simp only [hs, if_false, Bool.false_eq_true]
            rw [List.getLast?_concat]
      | null => exact ⟨cfg, by rw [List.getLast?_concat], fun k _ => rfl⟩
      | str s => exact ⟨cfg, by rw [List.getLast?_concat], fun k _ => rfl⟩
      | num n => exact ⟨cfg, by rw [List.getLast?_concat], fun k _ => rfl⟩
      | token => exact ⟨cfg, by rw [List.getLast?_concat], fun k _ => rfl⟩

lemma getLast?_cons_append {α : Type} (a : α) (l : List α) (x : α) :
    (a :: (l ++ [x])).getLast? = some x := by
  rw [← List.cons_append, List.getLast?_concat]

/-- The catch block never signals the cancel source. -/
lemma countCancelSignals_catchClause {R : Type} (ho : Option (List Int))
    (e : ServiceError R) :
    countCancelSignals (catchClause ho e).1 = 0 := by
  obtain ⟨ic, ax, resp, req, msg⟩ := e
  cases ic <;> cases ax <;> cases resp <;> cases req <;> cases ho <;>
    simp [catchClause, countCancelSignals, List.countP_cons,
      List.countP_append, jsOrUnknown]

/-- Handler-dispatch events contribute no console-error entries. -/
lemma errLogsOf_handlerMatch {R : Type} (ho : Option (List Int)) (s : Int) :
    errLogsOf ((match ho with
      | some keys => if keys.contains s then [Event.invokeHandler s] else []
      | none => []) : List (Event R)) = [] := by
  cases ho with
  | none => rfl
  | some keys => by_cases hk : keys.contains s <;> simp [errLogsOf, hk]

/-- C1: a non-cancellation rejection is re-raised to the caller as the very
same error value; it is neither swallowed nor replaced by a classified
substitute. -/
theorem serviceWrapperSaga_reraises_original {R : Type}
    (options : ServiceWrapperSagaOptions) (args : List JValue)
    (e : ServiceError R) (h : e.isCancel = false) :
    (serviceWrapperSaga options args (CallOutcome.reject e)).2
      = SagaResult.threw e := by
  simp [serviceWrapperSaga, catchClause, h]

/-- Witness for C1 at a concrete non-cancellation error. -/
theorem serviceWrapperSaga_reraises_original_witness :
    ({ isCancel := false, isAxiosError := false, response := none,
       request := false, message := none } : ServiceError Int).isCancel = false
    ∧ (serviceWrapperSaga { handleError := none, timeout := none } []
        (CallOutcome.reject
          ({ isCancel := false, isAxiosError := false, response := none,
             request := false, message := none } : ServiceError Int))).2
      = SagaResult.threw
          { isCancel := false, isAxiosError := false, response := none,
            request := false, message := none } :=
  ⟨rfl, serviceWrapperSaga_reraises_original _ _ _ rfl⟩

/-- C2: when the host cancels the invocation while it is suspended on the
remote call, `source.cancel` is signalled exactly once and the wrapper ends
with the cancellation outcome (no value for the caller) instead of
re-raising an error. -/
theorem hostCancel_signals_once {R : Type}
    (options : ServiceWrapperSagaOptions) (args : List JValue) :
    (serviceWrapperSaga options args (CallOutcome.hostCancel : CallOutcome R)).2
      = SagaResult.hostCancelled
    ∧ countCancelSignals
        (serviceWrapperSaga options args
          (CallOutcome.hostCancel : CallOutcome R)).1 = 1 := by
  constructor
  · rfl
  · simp [serviceWrapperSaga, finallyEvents, countCancelSignals, List.countP_cons]

/-- C6: a successful remote call is returned to the caller with its `data`,
`status` and `statusText` exactly as produced, unmodified. -/
theorem success_returns_unmodified {R : Type}
    (options : ServiceWrapperSagaOptions) (args : List JValue)
    (resp : ServiceResponse R) :
    (serviceWrapperSaga options args (CallOutcome.resolve resp)).2
      = SagaResult.returned (some resp)
    ∧ ∃ r, (serviceWrapperSaga options args (CallOutcome.resolve resp)).2
        = SagaResult.returned (some r)
        ∧ r.data = resp.data ∧ r.status = resp.status
        ∧ r.statusText = resp.statusText :=
  ⟨rfl, resp, rfl, rfl, rfl, rfl⟩

/-- C7: on every exit path the cleanup (finally) events precede the terminal
outcome, which is the last event of the trace, and the cancellation handle
is signalled exactly once on host cancellation and never otherwise (hence at
most once per invocation). -/
theorem cleanup_before_terminal_and_signal_at_most_once {R : Type}
    (options : ServiceWrapperSagaOptions) (args : List JValue)
    (outcome : CallOutcome R) :
    (serviceWrapperSaga options args outcome).1.getLast?
      = some (Event.terminal (serviceWrapperSaga options args outcome).2)
    ∧ countCancelSignals (serviceWrapperSaga options args outcome).1
      = (match outcome with
         | CallOutcome.hostCancel => 1
         | _ => 0) := by
  cases outcome with
  | resolve resp =>
      exact ⟨rfl, by
        simp [serviceWrapperSaga, finallyEvents, countCancelSignals,
          List.countP_cons]⟩
  | reject e =>
      constructor
      · show (Event.callService _ ::
            ((catchClause options.handleError e).1 ++ finallyEvents false ++
              [Event.terminal (catchClause options.handleError e).2])).getLast?
            = _
        rw [show ((catchClause options.handleError e).1 ++
              (finallyEvents false : List (Event R)) ++
              [Event.terminal (catchClause options.handleError e).2])
            = ((catchClause options.handleError e).1 ++ finallyEvents false) ++
              [Event.terminal (catchClause options.handleError e).2] from rfl]
        exact getLast?_cons_append _ _ _
      · show countCancelSignals (Event.callService _ ::
            ((catchClause options.handleError e).1 ++ finallyEvents false ++
              [Event.terminal (catchClause options.handleError e).2])) = 0
        simp only [countCancelSignals, List.countP_cons, List.countP_append,
          finallyEvents, if_false, Bool.false_eq_true, List.countP_nil]
        have hcc := countCancelSignals_catchClause options.handleError e
        unfold countCancelSignals at hcc
        simp [hcc]
  | hostCancel =>
      exact ⟨rfl, by
        simp [serviceWrapperSaga, finallyEvents, countCancelSignals,
          List.countP_cons]⟩

/-- C8: the configuration object handed to the remote-call function carries
`timeout = 30000` when the options omit a timeout, and the supplied value
when one is given; this holds whichever branch of the config merge runs. -/
theorem timeout_default_and_override (ho : Option (List Int)) (t : Int)
    (args : List JValue) :
    (∃ fields,
        (callServiceWithConfig
          (axiosConfigFields { handleError := ho, timeout := none }) args).getLast?
          = some (JValue.obj fields)
        ∧ getField fields "timeout" = some (JValue.num 30000))
    ∧ (∃ fields,
        (callServiceWithConfig
          (axiosConfigFields { handleError := ho, timeout := some t }) args).getLast?
          = some (JValue.obj fields)
        ∧ getField fields "timeout" = some (JValue.num t)) := by
  constructor
  · obtain ⟨fields, hl, hf⟩ :=
      augmented_getLast (axiosConfigFields { handleError := ho, timeout := none }) args
    refine ⟨fields, hl, ?_⟩
    rw [hf "timeout" (by rfl)]
    rfl
  · obtain ⟨fields, hl, hf⟩ :=
      augmented_getLast (axiosConfigFields { handleError := ho, timeout := some t }) args
    refine ⟨fields, hl, ?_⟩
    rw [hf "timeout" (by rfl)]
    rfl

/-- C3: on a failure carrying an upstream response of status `S`, the trace
is exactly the service call, the server-error log of status/statusText/body,
then the handler for `S` (invoked once, and only when `handleError` has an
entry for `S`), then the re-raise of the original error; no handler runs
when `S` is absent or `handleError` is omitted, and the diagnostic log is
emitted in every case.  Handlers are zero-argument callbacks by their type
`Map<number, () => void>`. -/
theorem handler_dispatch_exactly_once {R : Type}
    (options : ServiceWrapperSagaOptions) (args : List JValue)
    (e : ServiceError R) (r : ServiceResponse R)
    (hc : e.isCancel = false) (hax : e.isAxiosError = true)
    (hr : e.response = some r) :
    (serviceWrapperSaga options args (CallOutcome.reject e)).1
      = [Event.callService (callServiceWithConfig (axiosConfigFields options) args),
         Event.logErr (ErrLog.serverError r.status r.statusText r.data)]
        ++ (match options.handleError with
            | some keys =>
                if keys.contains r.status then [Event.invokeHandler r.status]
                else []
            | none => [])
        ++ [Event.terminal (SagaResult.threw e)]
    ∧ (∀ keys, options.handleError = some keys → keys.contains r.status = true →
        handlerCount (serviceWrapperSaga options args (CallOutcome.reject e)).1
          r.status = 1)
    ∧ ((∀ keys, options.handleError = some keys →
          keys.contains r.status = false) →
        invokedAnyHandler
          (serviceWrapperSaga options args (CallOutcome.reject e)).1 = false) := by
  have htrace : (serviceWrapperSaga options args (CallOutcome.reject e)).1
      = [Event.callService (callServiceWithConfig (axiosConfigFields options) args),
         Event.logErr (ErrLog.serverError r.status r.statusText r.data)]
        ++ (match options.handleError with
            | some keys =>
                if keys.contains r.status then [Event.invokeHandler r.status]
                else []
            | none => [])
        ++ [Event.terminal (SagaResult.threw e)] := by
    simp [serviceWrapperSaga, catchClause, hc, hax, hr, finallyEvents]
  refine ⟨htrace, ?_, ?_⟩
  · intro keys hk hcont
    have hm : r.status ∈ keys := by simpa using hcont
    rw [htrace, hk]
    simp [handlerCount, hm, List.countP_cons, List.countP_append]
  · intro habs
    rw [htrace]
    cases hk : options.handleError with
    | none => simp [invokedAnyHandler]
    | some keys =>
        have hm : r.status ∉ keys := by simpa using habs keys hk
        simp [invokedAnyHandler, hm]

/-- Witness for C3 at a concrete 404 failure with a handler registered for
status 404. -/
theorem handler_dispatch_exactly_once_witness :
    ({ isCancel := false, isAxiosError := true,
       response := some { data := (0 : Int), status := 404, statusText := "Not Found" },
       request := false, message := none } : ServiceError Int).isCancel = false
    ∧ ({ isCancel := false, isAxiosError := true,
         response := some { data := (0 : Int), status := 404, statusText := "Not Found" },
         request := false, message := none } : ServiceError Int).isAxiosError = true
    ∧ ({ isCancel := false, isAxiosError := true,
         response := some { data := (0 : Int), status := 404, statusText := "Not Found" },
         request := false, message := none } : ServiceError Int).response
        = some { data := (0 : Int), status := 404, statusText := "Not Found" }
    ∧ ((serviceWrapperSaga { handleError := some [404], timeout := none } []
          (CallOutcome.reject
            ({ isCancel := false, isAxiosError := true,
               response := some { data := (0 : Int), status := 404, statusText := "Not Found" },
               request := false, message := none } : ServiceError Int))).1
        = [Event.callService (callServiceWithConfig
              (axiosConfigFields { handleError := some [404], timeout := none }) []),
           Event.logErr (ErrLog.serverError 404 "Not Found" (0 : Int))]
          ++ (match ({ handleError := some [404], timeout := none } :
                ServiceWrapperSagaOptions).handleError with
              | some keys =>
                  if keys.contains 404 then [Event.invokeHandler 404] else []
              | none => [])
          ++ [Event.terminal (SagaResult.threw
                { isCancel := false, isAxiosError := true,
                  response := some { data := (0 : Int), status := 404, statusText := "Not Found" },
                  request := false, message := none })]
      ∧ (∀ keys,
            ({ handleError := some [404], timeout := none } :
              ServiceWrapperSagaOptions).handleError = some keys →
            keys.contains (404 : Int) = true →
            handlerCount
              (serviceWrapperSaga { handleError := some [404], timeout := none } []
                (CallOutcome.reject
                  ({ isCancel := false, isAxiosError := true,
                     response := some { data := (0 : Int), status := 404, statusText := "Not Found" },
                     request := false, message := none } : ServiceError Int))).1
              404 = 1)
      ∧ ((∀ keys,
            ({ handleError := some [404], timeout := none } :
              ServiceWrapperSagaOptions).handleError = some keys →
            keys.contains (404 : Int) = false) →
          invokedAnyHandler
            (serviceWrapperSaga { handleError := some [404], timeout := none } []
              (CallOutcome.reject
                ({ isCancel := false, isAxiosError := true,
                   response := some { data := (0 : Int), status := 404, statusText := "Not Found" },
                   request := false, message := none } : ServiceError Int))).1
            = false)) :=
  ⟨rfl, rfl, rfl,
    handler_dispatch_exactly_once { handleError := some [404], timeout := none } []
      { isCancel := false, isAxiosError := true,
        response := some { data := (0 : Int), status := 404, statusText := "Not Found" },
        request := false, message := none }
      { data := (0 : Int), status := 404, statusText := "Not Found" }
      rfl rfl rfl⟩

/-- C4: when the last argument is config-shaped the helper passes a single
merged trailing configuration (original fields plus the injected ones, the
injected fields winning on key clashes) and appends nothing, keeping the
argument count; when the last argument is not config-shaped a fresh trailing
configuration object is appended. -/
theorem config_merge_or_append (cfg fields : List (String × JValue))
    (rest : List JValue) (w : JValue)
    (hshape : isAxiosConfigShaped (JValue.obj fields) = true)
    (hw : isAxiosConfigShaped w = false) :
    callServiceWithConfig cfg (rest ++ [JValue.obj fields])
      = rest ++ [JValue.obj (mergeObj fields cfg)]
    ∧ (callServiceWithConfig cfg (rest ++ [JValue.obj fields])).length
      = (rest ++ [JValue.obj fields]).length
    ∧ (∀ k, getField (mergeObj fields cfg) k
        = (getField cfg k).or (getField fields k))
    ∧ callServiceWithConfig cfg (rest ++ [w]) = (rest ++ [w]) ++ [JValue.obj cfg] := by
  have h1 : callServiceWithConfig cfg (rest ++ [JValue.obj fields])
      = rest ++ [JValue.obj (mergeObj fields cfg)] := by
    unfold callServiceWithConfig
    rw [List.getLast?_concat]
    simp only [hshape, if_true, List.dropLast_concat]
  refine ⟨h1, ?_, fun k => getField_mergeObj fields cfg k, ?_⟩
  · rw [h1]
    simp
  · unfold callServiceWithConfig
    rw [List.getLast?_concat]
    cases w with
    | obj f => simp only [hw, if_false, Bool.false_eq_true]
    | null => rfl
    | str s => rfl
    | num n => rfl
    | token => rfl

/-- Witness for C4: the spec scenarios `args = [{method: 'GET', url: '/x'}]`
and `args = ['id123']`. -/
theorem config_merge_or_append_witness :
    isAxiosConfigShaped (JValue.obj
      [("method", JValue.str "GET"), ("url", JValue.str "/x")]) = true
    ∧ isAxiosConfigShaped (JValue.str "id123") = false
    ∧ (callServiceWithConfig
          (axiosConfigFields { handleError := none, timeout := none })
          ([] ++ [JValue.obj [("method", JValue.str "GET"), ("url", JValue.str "/x")]])
        = [] ++ [JValue.obj (mergeObj
            [("method", JValue.str "GET"), ("url", JValue.str "/x")]
            (axiosConfigFields { handleError := none, timeout := none }))]
      ∧ (callServiceWithConfig
          (axiosConfigFields { handleError := none, timeout := none })
          ([] ++ [JValue.obj [("method", JValue.str "GET"), ("url", JValue.str "/x")]])).length
        = (([] : List JValue) ++
            [JValue.obj [("method", JValue.str "GET"), ("url", JValue.str "/x")]]).length
      ∧ (∀ k, getField (mergeObj
            [("method", JValue.str "GET"), ("url", JValue.str "/x")]
            (axiosConfigFields { handleError := none, timeout := none })) k
          = (getField (axiosConfigFields { handleError := none, timeout := none }) k).or
              (getField [("method", JValue.str "GET"), ("url", JValue.str "/x")] k))
      ∧ callServiceWithConfig
            (axiosConfigFields { handleError := none, timeout := none })
            ([] ++ [JValue.str "id123"])
          = (([] : List JValue) ++ [JValue.str "id123"])
            ++ [JValue.obj (axiosConfigFields { handleError := none, timeout := none })]) :=
  ⟨rfl, rfl, config_merge_or_append _ _ _ _ rfl rfl⟩

/-- C5: a non-cancellation rejection falls in exactly one of the four
classification branches, and the corresponding console-error entry is the
only one logged: status/statusText/body for a server error, the message for
a network error, the (defaulted) message for a setup error, and the raw
error value otherwise. -/
theorem classification_exactly_one {R : Type}
    (options : ServiceWrapperSagaOptions) (args : List JValue)
    (e : ServiceError R) (h : e.isCancel = false) :
    ([isServerShape e, isNetworkShape e, isSetupShape e,
        isUnknownShape e].count true = 1)
    ∧ (isServerShape e = true → ∃ r, e.response = some r ∧
        errLogsOf (serviceWrapperSaga options args (CallOutcome.reject e)).1
          = [ErrLog.serverError r.status r.statusText r.data])
    ∧ (isNetworkShape e = true →
        errLogsOf (serviceWrapperSaga options args (CallOutcome.reject e)).1
          = [ErrLog.networkError e.message])
    ∧ (isSetupShape e = true →
        errLogsOf (serviceWrapperSaga options args (CallOutcome.reject e)).1
          = [ErrLog.setupError (jsOrUnknown e.message)])
    ∧ (isUnknownShape e = true →
        errLogsOf (serviceWrapperSaga options args (CallOutcome.reject e)).1
          = [ErrLog.unknownError e]) := by
  obtain ⟨ic, ax, resp, req, msg⟩ := e
  have hic : ic = false := h
  subst hic
  cases ax with
  | false =>
      refine ⟨by simp [isServerShape, isNetworkShape, isSetupShape, isUnknownShape],
        by simp [isServerShape], by simp [isNetworkShape], by simp [isSetupShape],
        fun _ => ?_⟩
      simp [serviceWrapperSaga, catchClause, finallyEvents, errLogsOf]
  | true =>
      cases resp with
      | some r =>
          refine ⟨by simp [isServerShape, isNetworkShape, isSetupShape, isUnknownShape],
            fun _ => ⟨r, rfl, ?_⟩,
            by simp [isNetworkShape], by simp [isSetupShape], by simp [isUnknownShape]⟩
          cases hk : options.handleError with
          | none =>
              simp [serviceWrapperSaga, catchClause, finallyEvents, errLogsOf, hk]
          | some keys =>
              by_cases hc : keys.contains r.status <;>
                simp [serviceWrapperSaga, catchClause, finallyEvents, errLogsOf,
                  hk, hc]
      | none =>
          cases req with
          | true =>
              refine ⟨by simp [isServerShape, isNetworkShape, isSetupShape,
                  isUnknownShape],
                by simp [isServerShape], fun _ => ?_,
                by simp [isSetupShape], by simp [isUnknownShape]⟩
              simp [serviceWrapperSaga, catchClause, finallyEvents, errLogsOf]
          | false =>
              refine ⟨by simp [isServerShape, isNetworkShape, isSetupShape,
                  isUnknownShape],
                by simp [isServerShape], by simp [isNetworkShape], fun _ => ?_,
                by simp [isUnknownShape]⟩
              simp [serviceWrapperSaga, catchClause, finallyEvents, errLogsOf]

/-- Witness for C5 at a concrete network-shaped error. -/
theorem classification_exactly_one_witness :
    ({ isCancel := false, isAxiosError := true, response := none, request := true, message := some "timeout" } : ServiceError Int).isCancel = false
    ∧ (([isServerShape ({ isCancel := false, isAxiosError := true, response := none, request := true, message := some "timeout" } : ServiceError Int),
        isNetworkShape ({ isCancel := false, isAxiosError := true, response := none, request := true, message := some "timeout" } : ServiceError Int),
        isSetupShape ({ isCancel := false, isAxiosError := true, response := none, request := true, message := some "timeout" } : ServiceError Int),
        isUnknownShape ({ isCancel := false, isAxiosError := true, response := none, request := true, message := some "timeout" } : ServiceError Int)].count true = 1)
      ∧ (isServerShape ({ isCancel := false, isAxiosError := true, response := none, request := true, message := some "timeout" } : ServiceError Int) = true →
          ∃ r, ({ isCancel := false, isAxiosError := true, response := none, request := true, message := some "timeout" } : ServiceError Int).response = some r ∧
            errLogsOf (serviceWrapperSaga { handleError := none, timeout := none } []
              (CallOutcome.reject ({ isCancel := false, isAxiosError := true, response := none, request := true, message := some "timeout" } : ServiceError Int))).1
              = [ErrLog.serverError r.status r.statusText r.data])
      ∧ (isNetworkShape ({ isCancel := false, isAxiosError := true, response := none, request := true, message := some "timeout" } : ServiceError Int) = true →
          errLogsOf (serviceWrapperSaga { handleError := none, timeout := none } []
            (CallOutcome.reject ({ isCancel := false, isAxiosError := true, response := none, request := true, message := some "timeout" } : ServiceError Int))).1
            = [ErrLog.networkError ({ isCancel := false, isAxiosError := true, response := none, request := true, message := some "timeout" } : ServiceError Int).message])
      ∧ (isSetupShape ({ isCancel := false, isAxiosError := true, response := none, request := true, message := some "timeout" } : ServiceError Int) = true →
          errLogsOf (serviceWrapperSaga { handleError := none, timeout := none } []
            (CallOutcome.reject ({ isCancel := false, isAxiosError := true, response := none, request := true, message := some "timeout" } : ServiceError Int))).1
            = [ErrLog.setupError (jsOrUnknown ({ isCancel := false, isAxiosError := true, response := none, request := true, message := some "timeout" } : ServiceError Int).message)])
      ∧ (isUnknownShape ({ isCancel := false, isAxiosError := true, response := none, request := true, message := some "timeout" } : ServiceError Int) = true →
          errLogsOf (serviceWrapperSaga { handleError := none, timeout := none } []
            (CallOutcome.reject ({ isCancel := false, isAxiosError := true, response := none, request := true, message := some "timeout" } : ServiceError Int))).1
            = [ErrLog.unknownError ({ isCancel := false, isAxiosError := true, response := none, request := true, message := some "timeout" } : ServiceError Int)])) :=
  ⟨rfl, classification_exactly_one { handleError := none, timeout := none } []
    ({ isCancel := false, isAxiosError := true, response := none, request := true, message := some "timeout" } : ServiceError Int) rfl⟩

/-- C10: the heap-level helper mutates no pre-existing heap cell: every
object or array the caller owned before the call, including the original
trailing configuration object and the argument array, reads back unchanged
afterwards (merge and append build only fresh cells). -/
theorem callServiceWithConfigHeap_preserves_heap (h : List HCell)
    (cfgRef : Nat) (args : List HVal) (a : Nat) (ha : a < h.length) :
    heapGet (callServiceWithConfigHeap h cfgRef args).1 a = heapGet h a := by
  unfold callServiceWithConfigHeap
  cases hl : args.getLast? with
  | none => rfl
  | some v =>
      cases v with
      | prim s => rfl
      | ref b =>
          by_cases hs : isAxiosConfigShapedH (heapGet h b)
          · simp only [hs, if_true]
            unfold heapGet
            exact List.getD_append _ _ _ _ ha
          · simp only [hs, if_false, Bool.false_eq_true]

/-- Witness for C10: a heap holding the caller config object and the
injected config object, with the shaped-merge branch exercised. -/
theorem callServiceWithConfigHeap_preserves_heap_witness :
    (0 : Nat) < ([HCell.obj [("url", HVal.prim "/x")],
        HCell.obj [("cancelToken", HVal.prim "tok")]] : List HCell).length
    ∧ heapGet (callServiceWithConfigHeap
        [HCell.obj [("url", HVal.prim "/x")],
         HCell.obj [("cancelToken", HVal.prim "tok")]] 1 [HVal.ref 0]).1 0
      = heapGet [HCell.obj [("url", HVal.prim "/x")],
         HCell.obj [("cancelToken", HVal.prim "tok")]] 0 :=
  ⟨by decide,
   callServiceWithConfigHeap_preserves_heap _ _ _ _ (by decide)⟩

end Wrapper

namespace Legacy

/-- C9 counterexample: with `handleError` omitted, the optional chain
`handleError?.get(response.status)?.()` short-circuits before evaluating
`response.status`, so a rejection without a `response` field completes the
legacy catch block without any `TypeError` — contradicting the claim that
the catch block dereferences `status` for every such rejection. -/
theorem legacy_no_typeerror_without_handlers :
    (@Legacy.legacyCatch Int none { response := none }).isTypeError = false :=
  rfl

/-- C9 (amended): the legacy catch block reads `response.status` only when a
`handleError` map is supplied; in that case a rejection without a `response`
field throws a `TypeError` inside the error-handling branch itself, while
with `handleError` omitted the optional chain short-circuits and no
dereference occurs. -/
theorem legacy_typeerror_with_handlers {R : Type} (keys : List Int)
    (e : Legacy.LegacyError R) (hr : e.response = none) :
    (Legacy.legacyCatch (some keys) e).isTypeError = true
    ∧ (@Legacy.legacyCatch R none e).isTypeError = false := by
  obtain ⟨resp⟩ := e
  cases resp with
  | none => exact ⟨rfl, rfl⟩
  | some r => simp at hr

/-- Witness for the amended C9 at a concrete handler map and a rejection
with no upstream response. -/
theorem legacy_typeerror_with_handlers_witness :
    ({ response := none } : Legacy.LegacyError Int).response = none
    ∧ ((Legacy.legacyCatch (some [404])
          ({ response := none } : Legacy.LegacyError Int)).isTypeError = true
      ∧ (@Legacy.legacyCatch Int none { response := none }).isTypeError = false) :=
  ⟨rfl, legacy_typeerror_with_handlers [404] _ rfl⟩

end Legacy
